import Mathlib

/-!
# gdk: the `cronx` scheduling façade and the example `userService`

A shallow embedding of

* `pkg/cronx/cronx.go`: `New`, `Default`, `Schedule`, `Schedules`, `Every`, `GetEntries`,
  `Remove`, run against the package-level variable `commandController`;
* `examples/myapp/internal/service/user.go`: `FindUserByID`, `CreateUser`, `isUsernameInUse`.

Package-level state is passed explicitly (`cronx.World`).  A Go `error` result is an `Option`
(`none` is `nil`).  Pointers that the code compares with `nil` are `Option`s as well.
-/

set_option autoImplicit false

/-! ## Go standard library pieces used by `cronx.go` -/

/-- A Go `error` as `cronx.go` observes it: the code only compares it with `nil` and reads its
message through `err.Error()`. -/
structure GoError where
  /-- The text returned by the method `Error()`. -/
  msg : String
deriving DecidableEq, Repr

/-- The method `err.Error()`. -/
def GoError.Error (e : GoError) : String := e.msg

namespace errors

/-- Go `errors.New(text)`: an error whose message is `text`. -/
def New (text : String) : GoError := ⟨text⟩

end errors

namespace strings

/-- Worker of `Split`: scans `s` from the left.  `skip` counts the characters of a separator
occurrence that are still to be dropped, `cur` holds the current piece, reversed. -/
def splitGo (sep : List Char) : List Char → Nat → List Char → List (List Char)
  | [], _, cur => [cur.reverse]
  | _ :: cs, skip + 1, cur => splitGo sep cs skip cur
  | c :: cs, 0, cur =>
    if sep.isPrefixOf (c :: cs) then cur.reverse :: splitGo sep cs (sep.length - 1) []
    else splitGo sep cs 0 (c :: cur)

/-- Go `strings.Split(s, sep)` for a non-empty `sep`: the pieces of `s` between the leftmost,
non-overlapping occurrences of `sep`, in order.  (`cronx.Schedules` never calls it with an empty
`sep`; for an empty `sep` Go explodes `s` into characters.) -/
def Split (s sep : String) : List String :=
  if sep = "" then s.data.map (fun c => String.mk [c])
  else (splitGo sep.data s.data 0 []).map String.mk

end strings

/-! ## The `robfig/cron` library, as far as `cronx.go` uses it -/

/-- The caller's job value (`JobItf`, anything with a `Run` method).  The scheduling calls never
look inside it, so it is an opaque handle. -/
structure JobItf where
  /-- Identity of the caller's value. -/
  handle : Nat
deriving DecidableEq, Repr

/-- Modelled from the spec: the status of a Job, "one of {Scheduled, Running, Succeeded, Failed,
Down}".  The declaration of `StatusCode` is not part of the source under study; `cronx.go` names
only `StatusCodeDown`. -/
inductive StatusCode where
  | Scheduled
  | Running
  | Succeeded
  | Failed
  | Down
deriving DecidableEq, Repr

/-- Modelled from the spec: "WaveMetadata (optional): {Wave: ordinal position (1-based),
TotalWave: count of sibling registrations sharing one logical job, IsLastWave: boolean}".  The
test file builds the same three fields in `cronx.JobMetadata`. -/
structure WaveMetadata where
  /-- Ordinal position, 1-based. -/
  Wave : Int
  /-- Number of sibling registrations. -/
  TotalWave : Int
  /-- Whether this is the last sibling. -/
  IsLastWave : Bool
deriving DecidableEq, Repr

/-- Modelled from the spec: the `Job` record (its declaration is not part of the source under
study).  `cronx.go` writes the fields `Status` and `Error`; the wave metadata and the wrapped
work are the spec's "WaveMetadata (optional)" and "RunFunction". -/
structure Job where
  /-- Current status. -/
  Status : StatusCode
  /-- Most recent failure message (the spec's LastError). -/
  Error : String
  /-- Optional wave metadata. -/
  Wave : Option WaveMetadata
  /-- The caller-supplied work. -/
  inner : JobItf
deriving DecidableEq, Repr

namespace cron

/-- Library type `cron.Schedule` (an interface): either a parsed field specification or a
constant delay.  Only the dispatcher looks inside. -/
inductive Schedule where
  | SpecSchedule (Second Minute Hour Dom Month Dow : Nat)
  | ConstantDelaySchedule (Delay : Int)
deriving DecidableEq, Repr

/-- One second, in nanoseconds (`time.Second`). -/
def Second : Int := 1000000000

/-- Library function `cron.Every(duration)`: a constant-delay schedule; delays below one second
are raised to one second and the delay is truncated to whole seconds. -/
def Every (duration : Int) : Schedule :=
  let d := if duration < Second then Second else duration
  Schedule.ConstantDelaySchedule (d - Int.tmod d Second)

/-- Library type `cron.EntryID`. -/
abbrev EntryID := Int

/-- Library type `cron.Entry`: the dispatcher's record binding a schedule to a job. -/
structure Entry where
  /-- Identifier handed out at registration. -/
  ID : EntryID
  /-- When to run. -/
  Schedule : Schedule
  /-- What to run. -/
  Job : Job
deriving DecidableEq, Repr

/-- Library type `cron.Parser`: its method `Parse` turns a spec into a schedule or an error. -/
structure Parser where
  /-- The method `Parse(spec)`, a pure function of the text. -/
  Parse : String → Except GoError Schedule

/-- Modelled from the spec: the Dispatcher (`*cron.Cron`, the `Commander`), which "maintains the
live set of Entries"; identifiers are "unique within a controller instance, monotonically
increasing".  The library is not part of the source under study. -/
structure Cron where
  /-- The entry set, in registration order. -/
  entries : List Entry
  /-- The last identifier handed out. -/
  nextID : EntryID
deriving DecidableEq, Repr

/-- Modelled from the spec: Dispatcher `Schedule(nextRunComputer, job) -> EntryID`, which
"registers an entry" and "returns a handle usable for removal". -/
def Cron.Schedule (c : Cron) (schedule : Schedule) (cmd : Job) : Cron × EntryID :=
  ({ entries := c.entries ++ [{ ID := c.nextID + 1, Schedule := schedule, Job := cmd }],
     nextID := c.nextID + 1 }, c.nextID + 1)

/-- Modelled from the spec: Dispatcher `Remove(id)`, which "deregisters the entry so it will not
be considered for future due-time computation". -/
def Cron.Remove (c : Cron) (id : EntryID) : Cron :=
  { c with entries := c.entries.filter (fun e => e.ID != id) }

/-- Modelled from the spec: Dispatcher `Entries()`, a snapshot of the entry set. -/
def Cron.Entries (c : Cron) : List Entry := c.entries

end cron

/-! ## `pkg/cronx/cronx.go` -/

namespace cronx

/-- The function value stored in `Config.PanicRecover`: the hook of `defaultConfig`, or one
supplied by the caller. -/
inductive PanicRecoverFn where
  | defaultPanicRecover
  | custom (handle : Nat)
deriving DecidableEq, Repr

/-- A `*time.Location`: `time.Local`, or another zone. -/
inductive Location where
  | Local
  | zone (name : String)
deriving DecidableEq, Repr

/-- The struct `Config` of `cronx.go`.  `PanicRecover` and `Location` may be `nil`. -/
structure Config where
  /-- Address of the status page; empty means it is not served. -/
  Address : String
  /-- Maximum number of jobs running at the same time. -/
  PoolSize : Int
  /-- Hook run around each job. -/
  PanicRecover : Option PanicRecoverFn
  /-- Time zone of the cron. -/
  Location : Option Location
deriving DecidableEq, Repr

/-- The variable `defaultConfig` of `cronx.go`. -/
def defaultConfig : Config :=
  { Address := ":8998"
    PoolSize := 1000
    PanicRecover := some PanicRecoverFn.defaultPanicRecover
    Location := some Location.Local }

/-- The fields of `CommandController` that `cronx.go` reads or writes. -/
structure CommandController where
  /-- The dispatcher; `nil` before it is set up. -/
  Commander : Option cron.Cron
  /-- The spec parser. -/
  Parser : cron.Parser
  /-- Jobs whose spec did not parse. -/
  UnregisteredJobs : List Job

/-- Package-level state of `cronx`. -/
structure World where
  /-- The variable `commandController`; `none` is the `nil` pointer. -/
  commandController : Option CommandController
  /-- Ghost field, not program state: the texts handed to `Parser.Parse` so far, in call
  order.  It makes "the spec is not parsed" a statement about the state. -/
  parseLog : List String

/-- The function `New(config)`.  `NewCommandController` and the method `Start` are not part of the source
under study and are taken as parameters. -/
def New (NewCommandController : Config → CommandController)
    (Start : CommandController → CommandController) (config : Config) (w : World) : World :=
  let config := if config.PoolSize ≤ 0 then { config with PoolSize := defaultConfig.PoolSize }
    else config
  let config := if config.PanicRecover = none then
      { config with PanicRecover := defaultConfig.PanicRecover }
    else config
  let config := if config.Location = none then { config with Location := some Location.Local }
    else config
  { commandController := some (Start (NewCommandController config))
    parseLog := w.parseLog }

/-- The function `Default()`. -/
def Default (NewCommandController : Config → CommandController)
    (Start : CommandController → CommandController) (w : World) : World :=
  New NewCommandController Start defaultConfig w

/-- The function `Schedule(spec, job)`.  `NewJob` is not part of the source under study and is taken as a
parameter; the call site gives it the job and nothing else. -/
def Schedule (NewJob : JobItf → Job) (w : World) (spec : String) (job : JobItf) :
    World × Option GoError :=
  match w.commandController with
  | none => (w, some (errors.New "cronx has not been initialized"))
  | some cc =>
    match cc.Commander with
    | none => (w, some (errors.New "cronx has not been initialized"))
    | some commander =>
      match cc.Parser.Parse spec with
      | Except.error err =>
        let downJob := NewJob job
        let downJob := { downJob with Status := StatusCode.Down }
        let downJob := { downJob with Error := err.Error }
        ({ commandController :=
             some { cc with UnregisteredJobs := cc.UnregisteredJobs ++ [downJob] }
           parseLog := w.parseLog ++ [spec] }, some err)
      | Except.ok schedule =>
        ({ commandController :=
             some { cc with Commander := some (commander.Schedule schedule (NewJob job)).1 }
           parseLog := w.parseLog ++ [spec] }, none)

/-- The `for _, v := range schedules` loop of `Schedules`. -/
def Schedules.loop (NewJob : JobItf → Job) (job : JobItf) :
    World → List String → World × Option GoError
  | w, [] => (w, none)
  | w, v :: rest =>
    match Schedule NewJob w v job with
    | (w', some err) => (w', some err)
    | (w', none) => Schedules.loop NewJob job w' rest

/-- The function `Schedules(spec, separator, job)`. -/
def Schedules (NewJob : JobItf → Job) (w : World) (spec separator : String) (job : JobItf) :
    World × Option GoError :=
  if spec = "" then (w, some (errors.New "invalid specification"))
  else if separator = "" then (w, some (errors.New "invalid separator"))
  else Schedules.loop NewJob job w (strings.Split spec separator)

/-- The function `Every(duration, job)`; it has no result. -/
def Every (NewJob : JobItf → Job) (w : World) (duration : Int) (job : JobItf) : World :=
  match w.commandController with
  | none => w
  | some cc =>
    match cc.Commander with
    | none => w
    | some commander =>
      { commandController :=
          some { cc with
            Commander := some (commander.Schedule (cron.Every duration) (NewJob job)).1 }
        parseLog := w.parseLog }

/-- The function `GetEntries()`; `none` is the `nil` slice returned before the controller is set up. -/
def GetEntries (w : World) : Option (List cron.Entry) :=
  match w.commandController with
  | none => none
  | some cc =>
    match cc.Commander with
    | none => none
    | some commander => some commander.Entries

/-- The function `Remove(id)`; it has no result. -/
def Remove (w : World) (id : cron.EntryID) : World :=
  match w.commandController with
  | none => w
  | some cc =>
    match cc.Commander with
    | none => w
    | some commander =>
      { commandController := some { cc with Commander := some (commander.Remove id) }
        parseLog := w.parseLog }

end cronx

namespace cronx

/-- The guard `commandController == nil || commandController.Commander == nil` that opens
`Schedule`, `Every`, `Stop`, `GetEntries` and `Remove`. -/
def uninitialized (w : World) : Bool :=
  match w.commandController with
  | none => true
  | some cc => cc.Commander.isNone

/-! ### Fixtures for the worked examples

The theorems below hold for every parser, every `NewJob` and every state; the fixtures only feed
the worked examples. -/

/-- All days of the month, with the library's star bit (`1<<63`). -/
def fixtureDom : Nat := 2 ^ 63 + (2 ^ 32 - 2)

/-- All months, with the star bit. -/
def fixtureMonth : Nat := 2 ^ 63 + (2 ^ 13 - 2)

/-- All days of the week, with the star bit. -/
def fixtureDow : Nat := 2 ^ 63 + (2 ^ 7 - 1)

/-- A stand-in for the library's parser: a table with the three six-field specs of the doc
comment of `Schedules` (daily at 01:00, 02:00 and 03:00); the empty text is rejected with the
library's `empty spec string`, and every other text, such as `bad`, with its field-count
message. -/
def fixtureParser : cron.Parser :=
  { Parse := fun spec =>
      if spec = "" then Except.error (errors.New "empty spec string")
      else if spec = "0 0 1 * * *" then
        Except.ok (cron.Schedule.SpecSchedule 1 1 2 fixtureDom fixtureMonth fixtureDow)
      else if spec = "0 0 2 * * *" then
        Except.ok (cron.Schedule.SpecSchedule 1 1 4 fixtureDom fixtureMonth fixtureDow)
      else if spec = "0 0 3 * * *" then
        Except.ok (cron.Schedule.SpecSchedule 1 1 8 fixtureDom fixtureMonth fixtureDow)
      else Except.error (errors.New ("expected exactly 6 fields: " ++ spec)) }

/-- A controller that has been set up: empty dispatcher, no unregistered job. -/
def fixtureController : CommandController :=
  { Commander := some { entries := [], nextID := 0 }
    Parser := fixtureParser
    UnregisteredJobs := [] }

/-- State after initialization, before any scheduling call. -/
def fixtureWorld : World :=
  { commandController := some fixtureController, parseLog := [] }

/-- State before initialization: `commandController` is `nil`. -/
def nilWorld : World :=
  { commandController := none, parseLog := [] }

/-- State with a controller whose `Commander` is `nil`. -/
def noCommanderWorld : World :=
  { commandController := some { fixtureController with Commander := none }, parseLog := [] }

/-- A `NewJob` for the examples: a fresh record, scheduled, without error or wave metadata. -/
def fixtureNewJob (job : JobItf) : Job :=
  { Status := StatusCode.Scheduled, Error := "", Wave := none, inner := job }

/-- The down job that `Schedule` builds from `NewJob(job)` and the parse error. -/
def downJobOf (NewJob : JobItf → Job) (job : JobItf) (err : GoError) : Job :=
  { NewJob job with Status := StatusCode.Down, Error := err.Error }

/-- The entries that `n` successive registrations of one job record add to a dispatcher whose
last identifier is `last`: identifiers `last + 1`, `last + 2`, ... in the order of `scheds`. -/
def newEntries (last : cron.EntryID) (j : Job) (scheds : List cron.Schedule) : List cron.Entry :=
  scheds.mapIdx (fun i s => { ID := last + 1 + (i : Int), Schedule := s, Job := j })

end cronx

/-! ## `examples/myapp/internal/service/user.go` -/

namespace errorx

/-- Modelled from the spec: nothing there describes package `errorx`, whose declarations are not
part of the source under study; the error codes are those `user.go` names (`Conflict`,
`Internal`, `Invalid`, `NotFound`), with `Other` for every further code, the empty one
included. -/
inductive Code where
  | Conflict
  | Internal
  | Invalid
  | NotFound
  | Other (name : String)
deriving DecidableEq, Repr

end errorx

/-- A non-nil Go `error` as `user.go` handles it: a `*errorx.Error` with the four fields the
code fills in, or an error of any other type. -/
inductive error where
  | other (text : String)
  | Error (Code : errorx.Code) (Message : String) (Op : String) (Err : Option error)

namespace entity

/-- The record `entity.User`; its declaration is not part of the source under study and
`user.go` reads only `Username`. -/
structure User where
  /-- The user name. -/
  Username : String
deriving DecidableEq, Repr

end entity

namespace internal

/-- The interface `UserRepository` of `repository.go`; a value of this type is one behaviour of
the repository.  The context argument is passed through untouched and is left out. -/
structure UserRepository where
  /-- Returns a user by ID. -/
  FindUserByID : Int → Option entity.User × Option error
  /-- Returns a user by username. -/
  FindUserByUsername : String → Option entity.User × Option error
  /-- Creates a new user. -/
  CreateUser : entity.User → Option error

/-- One call made to the repository, with its argument. -/
inductive RepoCall where
  | FindUserByID (id : Int)
  | FindUserByUsername (username : String)
  | CreateUser (user : entity.User)
deriving DecidableEq, Repr

end internal

namespace service

/-- The struct `userService`. -/
structure userService where
  /-- The repository the service delegates to. -/
  repository : internal.UserRepository

/-- The method `userService.FindUserByID(ctx, id)`.  `errorx.GetCode` is not part of the source
under study and is taken as a parameter.  The second component lists the repository calls made,
in order. -/
def userService.FindUserByID (GetCode : Option error → errorx.Code) (u : userService) (id : Int) :
    (Option entity.User × Option error) × List internal.RepoCall :=
  match u.repository.FindUserByID id with
  | (user, err) =>
    if GetCode err = errorx.Code.NotFound then
      ((user, none), [internal.RepoCall.FindUserByID id])
    else if err.isSome then
      ((none, err), [internal.RepoCall.FindUserByID id])
    else
      ((user, none), [internal.RepoCall.FindUserByID id])

/-- The method `userService.isUsernameInUse(ctx, username)`. -/
def userService.isUsernameInUse (GetCode : Option error → errorx.Code) (u : userService)
    (username : String) : (Bool × Option error) × List internal.RepoCall :=
  match u.repository.FindUserByUsername username with
  | (user, err) =>
    if GetCode err = errorx.Code.NotFound then
      ((false, none), [internal.RepoCall.FindUserByUsername username])
    else if err.isSome then
      ((false, some (error.Error errorx.Code.Internal
          "An internal error has occurred. Please contact technical support."
          "isUsernameInUse" err)), [internal.RepoCall.FindUserByUsername username])
    else
      ((user.isSome, none), [internal.RepoCall.FindUserByUsername username])

/-- The method `userService.CreateUser(ctx, user)`, for a non-nil `user`. -/
def userService.CreateUser (GetCode : Option error → errorx.Code) (u : userService)
    (user : entity.User) : Option error × List internal.RepoCall :=
  if user.Username = "" then
    (some (error.Error errorx.Code.Invalid "Username is required." "userService.CreateUser"
      none), [])
  else
    match userService.isUsernameInUse GetCode u user.Username with
    | ((inUse, err), calls) =>
      if err.isSome then
        (some (error.Error errorx.Code.Internal
          "An internal error has occurred. Please contact technical support."
          "userService.CreateUser" err), calls)
      else if inUse then
        (some (error.Error errorx.Code.Conflict
          "Username is already in use. Please choose a different username."
          "userService.CreateUser" none), calls)
      else
        match u.repository.CreateUser user with
        | some err =>
          (some (error.Error errorx.Code.Internal
            "An internal error has occurred. Please contact technical support."
            "userService.CreateUser" (some err)), calls ++ [internal.RepoCall.CreateUser user])
        | none => (none, calls ++ [internal.RepoCall.CreateUser user])

/-- The `Code` field of a returned error, when it is a `*errorx.Error`. -/
def codeField : Option error → Option errorx.Code
  | some (error.Error code _ _ _) => some code
  | _ => none

/-! ### Fixtures for the worked examples -/

/-- A stand-in for `errorx.GetCode` in the examples: the `Code` field of a `*errorx.Error`,
`Internal` for an error of another type, the empty code for nil. -/
def fixtureGetCode : Option error → errorx.Code
  | none => errorx.Code.Other ""
  | some (error.other _) => errorx.Code.Internal
  | some (error.Error code _ _ _) => code

/-- The not-found error of the example repository. -/
def fixtureNotFound : error :=
  error.Error errorx.Code.NotFound "User not found." "repository.find" none

/-- An example repository: user 1 is `alice`; ID 2 and the name `carol` hit a broken
connection; ID 4 is reported not found while a user value is returned all the same; every other
lookup is reported not found; creating `dave` fails. -/
def fixtureRepository : internal.UserRepository :=
  { FindUserByID := fun id =>
      if id = 1 then (some { Username := "alice" }, none)
      else if id = 2 then (none, some (error.other "connection reset"))
      else if id = 4 then (some { Username := "ghost" }, some fixtureNotFound)
      else (none, some fixtureNotFound)
    FindUserByUsername := fun username =>
      if username = "alice" then (some { Username := "alice" }, none)
      else if username = "carol" then (none, some (error.other "connection reset"))
      else (none, some fixtureNotFound)
    CreateUser := fun user =>
      if user.Username = "dave" then some (error.other "disk full") else none }

/-- The example service. -/
def fixtureService : userService := { repository := fixtureRepository }

end service

/-! ## Lemmas on the `Schedules` loop -/

theorem strings_splitGo_ne_nil (sep : List Char) :
    ∀ (s : List Char) (skip : Nat) (cur : List Char), strings.splitGo sep s skip cur ≠ [] := by
  intro s
  induction s with
  | nil => intro skip cur; simp [strings.splitGo]
  | cons c cs ih =>
    intro skip cur
    cases skip with
    | zero =>
      simp only [strings.splitGo]
      split
      · simp
      · exact ih 0 (c :: cur)
    | succ k => simpa [strings.splitGo] using ih k cur

theorem strings_Split_ne_nil (s sep : String) (hsep : sep ≠ "") : strings.Split s sep ≠ [] := by
  simp [strings.Split, hsep, strings_splitGo_ne_nil]

theorem cronx_newEntries_cons (last : cron.EntryID) (j : Job) (s : cron.Schedule)
    (ss : List cron.Schedule) :
    cronx.newEntries last j (s :: ss)
      = { ID := last + 1, Schedule := s, Job := j } :: cronx.newEntries (last + 1) j ss := by
  simp only [cronx.newEntries, List.mapIdx_cons, Nat.cast_zero, add_zero, List.cons.injEq,
    true_and]
  congr 1
  funext i s
  simp only [Nat.cast_add, Nat.cast_one, cron.Entry.mk.injEq, and_true]
  ring

theorem cronx_newEntries_length (last : cron.EntryID) (j : Job) (ss : List cron.Schedule) :
    (cronx.newEntries last j ss).length = ss.length := by
  simp [cronx.newEntries]

/-- Running the loop over a prefix whose sub-specs all parse registers them in order and goes on
with the rest. -/
theorem cronx_loop_initial_segment_ok (NewJob : JobItf → Job) (job : JobItf) (P : cron.Parser)
    (U : List Job) :
    ∀ (pre : List String) (scheds : List cron.Schedule) (c : cron.Cron) (log rest : List String),
      pre.map P.Parse = scheds.map Except.ok →
      cronx.Schedules.loop NewJob job
          { commandController := some { Commander := some c, Parser := P, UnregisteredJobs := U }
            parseLog := log } (pre ++ rest)
        = cronx.Schedules.loop NewJob job
          { commandController := some
              { Commander := some
                  { entries := c.entries ++ cronx.newEntries c.nextID (NewJob job) scheds
                    nextID := c.nextID + scheds.length }
                Parser := P
                UnregisteredJobs := U }
            parseLog := log ++ pre } rest := by
  intro pre
  induction pre with
  | nil =>
    intro scheds c log rest h
    cases scheds with
    | nil => simp [cronx.newEntries]
    | cons s ss => simp at h
  | cons v vs ih =>
    intro scheds c log rest h
    cases scheds with
    | nil => simp at h
    | cons s ss =>
      simp only [List.map_cons, List.cons.injEq] at h
      obtain ⟨hv, hvs⟩ := h
      rw [List.cons_append]
      simp only [cronx.Schedules.loop, cronx.Schedule, hv, cron.Cron.Schedule]
      rw [ih ss _ _ rest hvs]
      simp only [cronx_newEntries_cons, List.append_assoc, List.singleton_append,
        List.length_cons, Nat.cast_add, Nat.cast_one]
      congr 6
      ring

/-- The whole of `Schedules` when every sub-spec parses. -/
theorem cronx_Schedules_all_parse (NewJob : JobItf → Job) (w : cronx.World)
    (cc : cronx.CommandController) (c : cron.Cron) (spec separator : String) (job : JobItf)
    (scheds : List cron.Schedule)
    (hw : w.commandController = some cc) (hc : cc.Commander = some c)
    (hspec : spec ≠ "") (hsep : separator ≠ "")
    (hparse : (strings.Split spec separator).map cc.Parser.Parse = scheds.map Except.ok) :
    cronx.Schedules NewJob w spec separator job
        = ({ commandController := some
               { cc with
                 Commander := some
                   { entries := c.entries ++ cronx.newEntries c.nextID (NewJob job) scheds
                     nextID := c.nextID + scheds.length } }
             parseLog := w.parseLog ++ strings.Split spec separator }, none) := by
  obtain ⟨wc, log⟩ := w
  obtain ⟨cm, P, U⟩ := cc
  simp only at hw hc hparse
  subst hw hc
  have h := cronx_loop_initial_segment_ok NewJob job P U (strings.Split spec separator) scheds c log []
    hparse
  simp only [cronx.Schedules, hspec, hsep, if_false]
  rw [List.append_nil] at h
  rw [h]
  rfl

/-- The schedules of the entries added by successive registrations are the given schedules. -/
theorem cronx_newEntries_schedules (last : cron.EntryID) (j : Job) (ss : List cron.Schedule) :
    (cronx.newEntries last j ss).map (fun e => e.Schedule) = ss := by
  apply List.ext_getElem
  · simp [cronx.newEntries]
  · intro i h1 h2
    simp [cronx.newEntries]

/-- The delay of `cron.Every(duration)` in closed form: one second below one second, and the
duration cut down to whole seconds from there on. -/
theorem cron_Every_delay (duration : Int) :
    cron.Every duration
      = cron.Schedule.ConstantDelaySchedule
          (if duration < 1000000000 then 1000000000 else duration - duration % 1000000000) := by
  simp only [cron.Every, cron.Second]
  split
  · rfl
  · rw [Int.tmod_eq_emod (by omega) (by omega)]

/-! ## `Schedule` and `Schedules` -/

/-- C1, as the code has it: when the spec is non-empty, the separator is non-empty and every
one of the n sub-specs parses, `Schedules` on an initialized controller returns no error, parses
the sub-specs in order and adds exactly n entries to the dispatcher, in sub-spec order, with
consecutive identifiers; n is at least 1.  Every one of these entries carries the same job record
`NewJob(job)`, built from the job alone: no position and no count reaches it, so the wave
metadata of the n jobs is the same. -/
theorem C1_Schedules_registers_each_subspec_with_one_job_record
    (NewJob : JobItf → Job) (w : cronx.World) (cc : cronx.CommandController) (c : cron.Cron)
    (spec separator : String) (job : JobItf) (scheds : List cron.Schedule)
    (hw : w.commandController = some cc) (hc : cc.Commander = some c)
    (hspec : spec ≠ "") (hsep : separator ≠ "")
    (hparse : (strings.Split spec separator).map cc.Parser.Parse = scheds.map Except.ok) :
    cronx.Schedules NewJob w spec separator job
        = ({ commandController := some
               { cc with
                 Commander := some
                   { entries := c.entries ++ cronx.newEntries c.nextID (NewJob job) scheds
                     nextID := c.nextID + scheds.length } }
             parseLog := w.parseLog ++ strings.Split spec separator }, none)
      ∧ (cronx.newEntries c.nextID (NewJob job) scheds).length
          = (strings.Split spec separator).length
      ∧ 1 ≤ (strings.Split spec separator).length
      ∧ (∀ e ∈ cronx.newEntries c.nextID (NewJob job) scheds, e.Job = NewJob job)
      ∧ (cronx.newEntries c.nextID (NewJob job) scheds).map (fun e => e.Schedule) = scheds := by
  obtain ⟨wc, log⟩ := w
  obtain ⟨cm, P, U⟩ := cc
  simp only at hw hc hparse
  subst hw hc
  have hlen : scheds.length = (strings.Split spec separator).length := by
    have := congrArg List.length hparse
    simpa using this.symm
  refine ⟨?_, ?_, ?_, ?_, ?_⟩
  · exact cronx_Schedules_all_parse NewJob _ _ c spec separator job scheds rfl rfl hspec hsep
      hparse
  · rw [cronx_newEntries_length, hlen]
  · have := strings_Split_ne_nil spec separator hsep
    exact List.length_pos.mpr this
  · intro e he
    simp only [cronx.newEntries, List.mem_mapIdx] at he
    obtain ⟨i, _, rfl⟩ := he
    rfl
  · exact cronx_newEntries_schedules _ _ _

/-- C2, as the code has it: when the spec and the separator are non-empty and the sub-spec at
position k (0-based) is the first that does not parse, `Schedules` on an initialized controller returns that
sub-spec's parse error, the dispatcher has gained exactly the k entries of the sub-specs before
it, in order, and nothing after position k has been parsed or registered: the parse log ends with
the failing sub-spec.  (The failing sub-spec itself is recorded as a down job.) -/
theorem C2_Schedules_stops_at_first_parse_error
    (NewJob : JobItf → Job) (w : cronx.World) (cc : cronx.CommandController) (c : cron.Cron)
    (spec separator : String) (job : JobItf) (pre : List String) (bad : String)
    (rest : List String) (scheds : List cron.Schedule) (err : GoError)
    (hw : w.commandController = some cc) (hc : cc.Commander = some c)
    (hspec : spec ≠ "") (hsep : separator ≠ "")
    (hsplit : strings.Split spec separator = pre ++ bad :: rest)
    (hpre : pre.map cc.Parser.Parse = scheds.map Except.ok)
    (hbad : cc.Parser.Parse bad = Except.error err) :
    cronx.Schedules NewJob w spec separator job
        = ({ commandController := some
               { cc with
                 Commander := some
                   { entries := c.entries ++ cronx.newEntries c.nextID (NewJob job) scheds
                     nextID := c.nextID + scheds.length }
                 UnregisteredJobs := cc.UnregisteredJobs ++ [cronx.downJobOf NewJob job err] }
             parseLog := w.parseLog ++ pre ++ [bad] }, some err)
      ∧ (cronx.newEntries c.nextID (NewJob job) scheds).length = pre.length
      ∧ (cronx.newEntries c.nextID (NewJob job) scheds).map (fun e => e.Schedule) = scheds := by
  obtain ⟨wc, log⟩ := w
  obtain ⟨cm, P, U⟩ := cc
  simp only at hw hc hpre hbad
  subst hw hc
  have hlen : scheds.length = pre.length := by
    have := congrArg List.length hpre
    simpa using this.symm
  refine ⟨?_, ?_, ?_⟩
  · have h := cronx_loop_initial_segment_ok NewJob job P U pre scheds c log (bad :: rest) hpre
    simp only [cronx.Schedules, hspec, hsep, if_false, hsplit]
    rw [h]
    simp only [cronx.Schedules.loop, cronx.Schedule, hbad, cronx.downJobOf]
  · rw [cronx_newEntries_length, hlen]
  · exact cronx_newEntries_schedules _ _ _

/-- C1 as stated fails: with the three valid sub-specs of the doc comment of `Schedules`, no
`NewJob` whatsoever makes the three registered jobs carry Wave = 1, 2, 3 with TotalWave = 3 and
IsLastWave only on the third, because all three jobs are the one record `NewJob(job)`. -/
theorem C1_wave_tagging_counterexample :
    ¬ ∃ NewJob : JobItf → Job,
      ((cronx.GetEntries
          (cronx.Schedules NewJob cronx.fixtureWorld "0 0 1 * * *#0 0 2 * * *#0 0 3 * * *" "#"
            ⟨0⟩).1).getD []).map (fun e => e.Job.Wave)
        = [some { Wave := 1, TotalWave := 3, IsLastWave := false },
           some { Wave := 2, TotalWave := 3, IsLastWave := false },
           some { Wave := 3, TotalWave := 3, IsLastWave := true }] := by
  rintro ⟨NewJob, h⟩
  have hsplit : strings.Split "0 0 1 * * *#0 0 2 * * *#0 0 3 * * *" "#"
      = ["0 0 1 * * *", "0 0 2 * * *", "0 0 3 * * *"] := by rfl
  have hrun := (cronx_Schedules_all_parse NewJob cronx.fixtureWorld
    cronx.fixtureController { entries := [], nextID := 0 }
    "0 0 1 * * *#0 0 2 * * *#0 0 3 * * *" "#" ⟨0⟩
    [cron.Schedule.SpecSchedule 1 1 2 cronx.fixtureDom cronx.fixtureMonth cronx.fixtureDow,
     cron.Schedule.SpecSchedule 1 1 4 cronx.fixtureDom cronx.fixtureMonth cronx.fixtureDow,
     cron.Schedule.SpecSchedule 1 1 8 cronx.fixtureDom cronx.fixtureMonth cronx.fixtureDow]
    rfl rfl (by decide) (by decide) (by rw [hsplit]; rfl))
  rw [hrun] at h
  simp [cronx.GetEntries, cronx.newEntries, cron.Cron.Entries, cronx.fixtureController] at h
  obtain ⟨h1, h2, _⟩ := h
  rw [h1] at h2
  simp at h2

/-- Worked example for C1: the three sub-specs of the doc comment of `Schedules` give three
entries with identifiers 1, 2, 3, in sub-spec order, all with the same job record, and no
error. -/
theorem C1_Schedules_three_subspecs_witness :
    cronx.GetEntries
        (cronx.Schedules cronx.fixtureNewJob cronx.fixtureWorld
          "0 0 1 * * *#0 0 2 * * *#0 0 3 * * *" "#" ⟨7⟩).1
      = some
        [{ ID := 1
           Schedule := cron.Schedule.SpecSchedule 1 1 2 cronx.fixtureDom cronx.fixtureMonth
             cronx.fixtureDow
           Job := cronx.fixtureNewJob ⟨7⟩ },
         { ID := 2
           Schedule := cron.Schedule.SpecSchedule 1 1 4 cronx.fixtureDom cronx.fixtureMonth
             cronx.fixtureDow
           Job := cronx.fixtureNewJob ⟨7⟩ },
         { ID := 3
           Schedule := cron.Schedule.SpecSchedule 1 1 8 cronx.fixtureDom cronx.fixtureMonth
             cronx.fixtureDow
           Job := cronx.fixtureNewJob ⟨7⟩ }]
      ∧ (cronx.Schedules cronx.fixtureNewJob cronx.fixtureWorld
          "0 0 1 * * *#0 0 2 * * *#0 0 3 * * *" "#" ⟨7⟩).2 = none := by
  have h := C1_Schedules_registers_each_subspec_with_one_job_record cronx.fixtureNewJob
    cronx.fixtureWorld cronx.fixtureController { entries := [], nextID := 0 }
    "0 0 1 * * *#0 0 2 * * *#0 0 3 * * *" "#" ⟨7⟩
    [cron.Schedule.SpecSchedule 1 1 2 cronx.fixtureDom cronx.fixtureMonth cronx.fixtureDow,
     cron.Schedule.SpecSchedule 1 1 4 cronx.fixtureDom cronx.fixtureMonth cronx.fixtureDow,
     cron.Schedule.SpecSchedule 1 1 8 cronx.fixtureDom cronx.fixtureMonth cronx.fixtureDow]
    rfl rfl (by decide) (by decide) (by rfl)
  rw [h.1]
  exact ⟨rfl, rfl⟩

/-- C2 as stated fails at the empty spec: with separator `#` its only sub-spec is the empty
text, at position 0, which the parser rejects with `empty spec string`; yet `Schedules` returns
`invalid specification`, not that parse error, and hands nothing to the parser, because the test
`spec == ""` comes before the split. -/
theorem C2_empty_spec_counterexample :
    strings.Split "" "#" = [""]
      ∧ cronx.fixtureParser.Parse "" = Except.error (errors.New "empty spec string")
      ∧ (cronx.Schedules cronx.fixtureNewJob cronx.fixtureWorld "" "#" ⟨7⟩).2
          = some (errors.New "invalid specification")
      ∧ (cronx.Schedules cronx.fixtureNewJob cronx.fixtureWorld "" "#" ⟨7⟩).2
          ≠ some (errors.New "empty spec string")
      ∧ (cronx.Schedules cronx.fixtureNewJob cronx.fixtureWorld "" "#" ⟨7⟩).1.parseLog = [] := by
  refine ⟨by rfl, by rfl, by rfl, ?_, by rfl⟩
  have h : (cronx.Schedules cronx.fixtureNewJob cronx.fixtureWorld "" "#" ⟨7⟩).2
      = some (errors.New "invalid specification") := by rfl
  rw [h]
  decide

/-- Worked example for C2, the spec's own: `0 0 1 * * *#bad#0 0 3 * * *` with separator `#`
registers exactly one entry (the first segment), returns the parse error of `bad`, records `bad`
as a down job, and never parses the third segment. -/
theorem C2_Schedules_bad_second_segment_witness :
    cronx.GetEntries
        (cronx.Schedules cronx.fixtureNewJob cronx.fixtureWorld "0 0 1 * * *#bad#0 0 3 * * *" "#"
          ⟨7⟩).1
      = some
        [{ ID := 1
           Schedule := cron.Schedule.SpecSchedule 1 1 2 cronx.fixtureDom cronx.fixtureMonth
             cronx.fixtureDow
           Job := cronx.fixtureNewJob ⟨7⟩ }]
      ∧ (cronx.Schedules cronx.fixtureNewJob cronx.fixtureWorld "0 0 1 * * *#bad#0 0 3 * * *" "#"
          ⟨7⟩).2 = some (errors.New "expected exactly 6 fields: bad")
      ∧ (cronx.Schedules cronx.fixtureNewJob cronx.fixtureWorld "0 0 1 * * *#bad#0 0 3 * * *" "#"
          ⟨7⟩).1.parseLog = ["0 0 1 * * *", "bad"] := by
  have h := C2_Schedules_stops_at_first_parse_error cronx.fixtureNewJob
    cronx.fixtureWorld cronx.fixtureController { entries := [], nextID := 0 }
    "0 0 1 * * *#bad#0 0 3 * * *" "#" ⟨7⟩ ["0 0 1 * * *"] "bad" ["0 0 3 * * *"]
    [cron.Schedule.SpecSchedule 1 1 2 cronx.fixtureDom cronx.fixtureMonth cronx.fixtureDow]
    (errors.New "expected exactly 6 fields: bad")
    rfl rfl (by decide) (by decide) (by rfl) (by rfl) (by rfl)
  rw [h.1]
  exact ⟨rfl, rfl, rfl⟩

/-- C3: on an initialized controller, if the parser rejects the spec, `Schedule` returns the
parser's error, appends exactly one job to `UnregisteredJobs` (status Down, error text the
message of that error) after the earlier ones, and leaves the dispatcher's entries as they were;
if the parser accepts the spec, `Schedule` returns no error, adds exactly one entry to the
dispatcher and leaves `UnregisteredJobs` as it was. -/
theorem C3_Schedule_parse_failure_and_success
    (NewJob : JobItf → Job) (w : cronx.World) (cc : cronx.CommandController) (c : cron.Cron)
    (spec : String) (job : JobItf)
    (hw : w.commandController = some cc) (hc : cc.Commander = some c) :
    (∀ err, cc.Parser.Parse spec = Except.error err →
      cronx.Schedule NewJob w spec job
          = ({ commandController := some
                 { cc with
                   UnregisteredJobs := cc.UnregisteredJobs ++ [cronx.downJobOf NewJob job err] }
               parseLog := w.parseLog ++ [spec] }, some err)
        ∧ (cronx.downJobOf NewJob job err).Status = StatusCode.Down
        ∧ (cronx.downJobOf NewJob job err).Error = err.Error
        ∧ cronx.GetEntries (cronx.Schedule NewJob w spec job).1 = cronx.GetEntries w)
    ∧ (∀ schedule, cc.Parser.Parse spec = Except.ok schedule →
      cronx.Schedule NewJob w spec job
          = ({ commandController := some
                 { cc with
                   Commander := some
                     { entries := c.entries
                         ++ [{ ID := c.nextID + 1, Schedule := schedule, Job := NewJob job }]
                       nextID := c.nextID + 1 } }
               parseLog := w.parseLog ++ [spec] }, none)
        ∧ cronx.GetEntries (cronx.Schedule NewJob w spec job).1
            = some (c.entries
                ++ [{ ID := c.nextID + 1, Schedule := schedule, Job := NewJob job }])
        ∧ cronx.GetEntries w = some c.entries) := by
  obtain ⟨wc, log⟩ := w
  obtain ⟨cm, P, U⟩ := cc
  simp only at hw hc
  subst hw hc
  constructor
  · intro err herr
    simp only at herr
    simp [cronx.Schedule, herr, cronx.downJobOf, cronx.GetEntries]
  · intro schedule hok
    simp only at hok
    simp [cronx.Schedule, hok, cronx.GetEntries, cron.Cron.Schedule, cron.Cron.Entries]

/-- Worked example for C3 on the fixture controller: `bad` leaves the dispatcher empty and adds
one down job; `0 0 2 * * *` adds the entry with identifier 1 and no down job. -/
theorem C3_Schedule_witness :
    (cronx.Schedule cronx.fixtureNewJob cronx.fixtureWorld "bad" ⟨7⟩).2
        = some (errors.New "expected exactly 6 fields: bad")
      ∧ cronx.GetEntries (cronx.Schedule cronx.fixtureNewJob cronx.fixtureWorld "bad" ⟨7⟩).1
        = some []
      ∧ (cronx.Schedule cronx.fixtureNewJob cronx.fixtureWorld "bad" ⟨7⟩).1.commandController.map
          (fun cc => cc.UnregisteredJobs)
        = some [{ Status := StatusCode.Down, Error := "expected exactly 6 fields: bad",
                  Wave := none, inner := ⟨7⟩ }]
      ∧ (cronx.Schedule cronx.fixtureNewJob cronx.fixtureWorld "0 0 2 * * *" ⟨7⟩).2 = none
      ∧ cronx.GetEntries
          (cronx.Schedule cronx.fixtureNewJob cronx.fixtureWorld "0 0 2 * * *" ⟨7⟩).1
        = some
          [{ ID := 1
             Schedule := cron.Schedule.SpecSchedule 1 1 4 cronx.fixtureDom cronx.fixtureMonth
               cronx.fixtureDow
             Job := cronx.fixtureNewJob ⟨7⟩ }] := by
  have hbad := (C3_Schedule_parse_failure_and_success cronx.fixtureNewJob cronx.fixtureWorld
    cronx.fixtureController { entries := [], nextID := 0 } "bad" ⟨7⟩ rfl rfl).1
    (errors.New "expected exactly 6 fields: bad") (by rfl)
  have hok := (C3_Schedule_parse_failure_and_success cronx.fixtureNewJob cronx.fixtureWorld
    cronx.fixtureController { entries := [], nextID := 0 } "0 0 2 * * *" ⟨7⟩ rfl rfl).2
    (cron.Schedule.SpecSchedule 1 1 4 cronx.fixtureDom cronx.fixtureMonth cronx.fixtureDow)
    (by rfl)
  rw [hbad.1, hok.1]
  exact ⟨rfl, rfl, rfl, rfl, rfl⟩

/-- C4: for every state (the controller initialized or not), `Schedules` with an empty spec
fails with the error `invalid specification`, and `Schedules` with an empty separator fails with
`invalid separator` (or with `invalid specification` when the spec is empty too, as that test
comes first).  These two are the argument errors of `Schedules`.  The state is returned
untouched: nothing is parsed, and neither the dispatcher's entries nor `UnregisteredJobs`
change. -/
theorem C4_Schedules_rejects_empty_spec_or_separator
    (NewJob : JobItf → Job) (w : cronx.World) (spec separator : String) (job : JobItf) :
    cronx.Schedules NewJob w "" separator job = (w, some (errors.New "invalid specification"))
      ∧ cronx.Schedules NewJob w spec "" job
          = (w, some (errors.New
              (if spec = "" then "invalid specification" else "invalid separator")))
      ∧ (cronx.Schedules NewJob w "" separator job).1.parseLog = w.parseLog
      ∧ (cronx.Schedules NewJob w spec "" job).1.parseLog = w.parseLog
      ∧ cronx.GetEntries (cronx.Schedules NewJob w "" separator job).1 = cronx.GetEntries w
      ∧ cronx.GetEntries (cronx.Schedules NewJob w spec "" job).1 = cronx.GetEntries w := by
  have h1 : cronx.Schedules NewJob w "" separator job
      = (w, some (errors.New "invalid specification")) := by
    simp [cronx.Schedules]
  have h2 : cronx.Schedules NewJob w spec "" job
      = (w, some (errors.New
          (if spec = "" then "invalid specification" else "invalid separator"))) := by
    by_cases h : spec = ""
    · simp [cronx.Schedules, h]
    · simp [cronx.Schedules, h]
  refine ⟨h1, h2, ?_, ?_, ?_, ?_⟩
  · rw [h1]
  · rw [h2]
  · rw [h1]
  · rw [h2]

/-- C5: while the controller is uninitialized (no controller, or a controller without a
dispatcher), `Schedule` returns the error `cronx has not been initialized` for every spec and
job and returns the state untouched: the spec is not parsed, no entry and no down job is added.
So `Schedules` with a non-empty spec and separator returns that same error and the same
state, and its outcome is that of `Schedule` on the first sub-spec alone. -/
theorem C5_Schedule_and_Schedules_before_initialization
    (NewJob : JobItf → Job) (w : cronx.World) (spec : String) (job : JobItf)
    (spec2 separator : String)
    (hw : cronx.uninitialized w = true) (hspec : spec2 ≠ "") (hsep : separator ≠ "") :
    cronx.Schedule NewJob w spec job = (w, some (errors.New "cronx has not been initialized"))
      ∧ cronx.Schedules NewJob w spec2 separator job
          = (w, some (errors.New "cronx has not been initialized"))
      ∧ ∃ v rest, strings.Split spec2 separator = v :: rest
          ∧ cronx.Schedules NewJob w spec2 separator job = cronx.Schedule NewJob w v job := by
  have hS : ∀ s, cronx.Schedule NewJob w s job
      = (w, some (errors.New "cronx has not been initialized")) := by
    intro s
    obtain ⟨wc, log⟩ := w
    cases wc with
    | none => rfl
    | some cc =>
      obtain ⟨cm, P, U⟩ := cc
      cases cm with
      | none => rfl
      | some c => simp [cronx.uninitialized] at hw
  have hne := strings_Split_ne_nil spec2 separator hsep
  obtain ⟨v, rest, hsplit⟩ := List.exists_cons_of_ne_nil hne
  have hrun : cronx.Schedules NewJob w spec2 separator job = cronx.Schedule NewJob w v job := by
    simp only [cronx.Schedules, hspec, hsep, if_false, hsplit, cronx.Schedules.loop, hS]
  refine ⟨hS spec, ?_, v, rest, hsplit, hrun⟩
  rw [hrun, hS]

/-- Worked example for C5: with `commandController` nil, and with a controller whose
`Commander` is nil, `Schedule` and `Schedules` return the error and leave the parse log
empty. -/
theorem C5_before_initialization_witness :
    (cronx.Schedule cronx.fixtureNewJob cronx.nilWorld "0 0 1 * * *" ⟨7⟩).2
        = some (errors.New "cronx has not been initialized")
      ∧ (cronx.Schedules cronx.fixtureNewJob cronx.nilWorld "0 0 1 * * *#0 0 2 * * *" "#" ⟨7⟩).2
        = some (errors.New "cronx has not been initialized")
      ∧ (cronx.Schedules cronx.fixtureNewJob cronx.nilWorld "0 0 1 * * *#0 0 2 * * *" "#"
          ⟨7⟩).1.parseLog = []
      ∧ (cronx.Schedules cronx.fixtureNewJob cronx.noCommanderWorld "0 0 1 * * *#0 0 2 * * *" "#"
          ⟨7⟩).2 = some (errors.New "cronx has not been initialized")
      ∧ (cronx.Schedules cronx.fixtureNewJob cronx.noCommanderWorld "0 0 1 * * *#0 0 2 * * *" "#"
          ⟨7⟩).1.parseLog = [] := by
  have h1 := C5_Schedule_and_Schedules_before_initialization cronx.fixtureNewJob cronx.nilWorld
    "0 0 1 * * *" ⟨7⟩ "0 0 1 * * *#0 0 2 * * *" "#" rfl (by decide) (by decide)
  have h2 := C5_Schedule_and_Schedules_before_initialization cronx.fixtureNewJob
    cronx.noCommanderWorld "0 0 1 * * *" ⟨7⟩ "0 0 1 * * *#0 0 2 * * *" "#" rfl (by decide)
    (by decide)
  rw [h1.1, h1.2.1, h2.2.1]
  exact ⟨rfl, rfl, rfl, rfl, rfl⟩

/-! ## `Every`, `Remove`, `New` -/

/-- C6: while the controller is uninitialized, `Every` returns the state untouched for every
duration and job (it has no error result).  On an initialized controller `Every` adds exactly one
entry to the dispatcher, whose schedule is a constant delay computed from the duration: one
second when the duration is below one second, and otherwise the duration cut down to whole
seconds (so it is at most the duration and less than one second short of it).  It leaves
`UnregisteredJobs` and the parse log as they were. -/
theorem C6_Every_no_op_or_one_entry
    (NewJob : JobItf → Job) (w : cronx.World) (duration : Int) (job : JobItf) :
    (cronx.uninitialized w = true → cronx.Every NewJob w duration job = w)
      ∧ (∀ cc c, w.commandController = some cc → cc.Commander = some c →
          cronx.Every NewJob w duration job
              = { commandController := some
                    { cc with
                      Commander := some
                        { entries := c.entries
                            ++ [{ ID := c.nextID + 1
                                  Schedule := cron.Schedule.ConstantDelaySchedule
                                    (if duration < 1000000000 then 1000000000
                                     else duration - duration % 1000000000)
                                  Job := NewJob job }]
                          nextID := c.nextID + 1 } }
                  parseLog := w.parseLog }
            ∧ cronx.GetEntries (cronx.Every NewJob w duration job)
                = some (c.entries
                    ++ [{ ID := c.nextID + 1
                          Schedule := cron.Schedule.ConstantDelaySchedule
                            (if duration < 1000000000 then 1000000000
                             else duration - duration % 1000000000)
                          Job := NewJob job }])
            ∧ (cronx.Every NewJob w duration job).commandController.map
                  (fun cc1 => cc1.UnregisteredJobs)
                = some cc.UnregisteredJobs)
      ∧ (1000000000 ≤ duration →
          (if duration < 1000000000 then 1000000000 else duration - duration % 1000000000)
              ≤ duration
            ∧ duration
              < (if duration < 1000000000 then 1000000000
                 else duration - duration % 1000000000) + 1000000000)
      ∧ (if duration < 1000000000 then 1000000000 else duration - duration % 1000000000)
          % 1000000000 = 0 := by
  obtain ⟨wc, log⟩ := w
  refine ⟨?_, ?_, ?_, ?_⟩
  · intro hw
    cases wc with
    | none => rfl
    | some cc =>
      obtain ⟨cm, P, U⟩ := cc
      cases cm with
      | none => rfl
      | some c => simp [cronx.uninitialized] at hw
  · intro cc c hw hc
    obtain ⟨cm, P, U⟩ := cc
    simp only at hw hc
    subst hw hc
    refine ⟨by simp [cronx.Every, cron.Cron.Schedule, cron_Every_delay], by
      simp [cronx.Every, cron.Cron.Schedule, cronx.GetEntries, cron.Cron.Entries,
        cron_Every_delay], by
      simp [cronx.Every]⟩
  · intro hd
    rw [if_neg (by omega)]
    omega
  · split <;> omega

/-- Worked example for C6: before initialization `Every` does nothing; after it, 90.5 seconds
registers a 90 second delay, 5 nanoseconds a one second delay, and 3 seconds a 3 second delay,
with no unregistered job. -/
theorem C6_Every_witness :
    cronx.Every cronx.fixtureNewJob cronx.nilWorld 90500000000 ⟨7⟩ = cronx.nilWorld
      ∧ cronx.Every cronx.fixtureNewJob cronx.noCommanderWorld 90500000000 ⟨7⟩
          = cronx.noCommanderWorld
      ∧ cronx.GetEntries (cronx.Every cronx.fixtureNewJob cronx.fixtureWorld 90500000000 ⟨7⟩)
          = some [{ ID := 1, Schedule := cron.Schedule.ConstantDelaySchedule 90000000000,
                    Job := cronx.fixtureNewJob ⟨7⟩ }]
      ∧ cronx.GetEntries (cronx.Every cronx.fixtureNewJob cronx.fixtureWorld 5 ⟨7⟩)
          = some [{ ID := 1, Schedule := cron.Schedule.ConstantDelaySchedule 1000000000,
                    Job := cronx.fixtureNewJob ⟨7⟩ }]
      ∧ cronx.GetEntries (cronx.Every cronx.fixtureNewJob cronx.fixtureWorld 3000000000 ⟨7⟩)
          = some [{ ID := 1, Schedule := cron.Schedule.ConstantDelaySchedule 3000000000,
                    Job := cronx.fixtureNewJob ⟨7⟩ }]
      ∧ (cronx.Every cronx.fixtureNewJob cronx.fixtureWorld 90500000000 ⟨7⟩).commandController.map
            (fun cc => cc.UnregisteredJobs)
          = some [] := by
  have h1 := (C6_Every_no_op_or_one_entry cronx.fixtureNewJob cronx.nilWorld 90500000000 ⟨7⟩).1
    rfl
  have h2 := (C6_Every_no_op_or_one_entry cronx.fixtureNewJob cronx.noCommanderWorld
    90500000000 ⟨7⟩).1 rfl
  have h3 := (C6_Every_no_op_or_one_entry cronx.fixtureNewJob cronx.fixtureWorld
    90500000000 ⟨7⟩).2.1 cronx.fixtureController { entries := [], nextID := 0 } rfl rfl
  have h4 := (C6_Every_no_op_or_one_entry cronx.fixtureNewJob cronx.fixtureWorld
    5 ⟨7⟩).2.1 cronx.fixtureController { entries := [], nextID := 0 } rfl rfl
  have h5 := (C6_Every_no_op_or_one_entry cronx.fixtureNewJob cronx.fixtureWorld
    3000000000 ⟨7⟩).2.1 cronx.fixtureController { entries := [], nextID := 0 } rfl rfl
  refine ⟨h1, h2, ?_, ?_, ?_, ?_⟩
  · rw [h3.2.1]
    decide
  · rw [h4.2.1]
    decide
  · rw [h5.2.1]
    decide
  · rw [h3.2.2]
    rfl

/-- C8: `Remove` is idempotent: for every state and identifier, removing twice leaves the
state that removing once leaves (`Remove` has no error result).  `Remove` deletes from the entry
set exactly the entries with that identifier and keeps every other entry, in order; it does not
touch `UnregisteredJobs` or the parse log; and on an uninitialized controller it returns the
state untouched. -/
theorem C8_Remove_idempotent (w : cronx.World) (id : cron.EntryID) :
    cronx.Remove (cronx.Remove w id) id = cronx.Remove w id
      ∧ cronx.GetEntries (cronx.Remove w id)
          = (cronx.GetEntries w).map (fun es => es.filter (fun e => e.ID != id))
      ∧ (∀ e, e.ID ≠ id →
          (e ∈ (cronx.GetEntries (cronx.Remove w id)).getD []
            ↔ e ∈ (cronx.GetEntries w).getD []))
      ∧ (∀ e ∈ (cronx.GetEntries (cronx.Remove w id)).getD [], e.ID ≠ id)
      ∧ (cronx.Remove w id).commandController.map (fun cc => cc.UnregisteredJobs)
          = w.commandController.map (fun cc => cc.UnregisteredJobs)
      ∧ (cronx.Remove w id).parseLog = w.parseLog
      ∧ (cronx.uninitialized w = true → cronx.Remove w id = w) := by
  obtain ⟨wc, log⟩ := w
  cases wc with
  | none => simp [cronx.Remove, cronx.GetEntries]
  | some cc =>
    obtain ⟨cm, P, U⟩ := cc
    cases cm with
    | none => simp [cronx.Remove, cronx.GetEntries]
    | some c =>
      simp only [cronx.Remove, cron.Cron.Remove, cronx.GetEntries, cron.Cron.Entries,
        cronx.uninitialized, List.filter_filter, Bool.and_self, Option.map_some',
        Option.getD_some, List.mem_filter, Option.isNone_some, Bool.false_eq_true,
        false_implies, and_true, true_and]
      refine ⟨?_, ?_⟩
      · intro e he
        simp [he]
      · intro e he
        simpa using he.2

/-- Worked example for C8: from entries 1, 2, 3, removing 2 once or twice leaves entries 1
and 3; on the uninitialized state nothing changes. -/
theorem C8_Remove_witness :
    cronx.GetEntries
        (cronx.Remove
          (cronx.Schedules cronx.fixtureNewJob cronx.fixtureWorld
            "0 0 1 * * *#0 0 2 * * *#0 0 3 * * *" "#" ⟨7⟩).1 2)
      = some
        [{ ID := 1
           Schedule := cron.Schedule.SpecSchedule 1 1 2 cronx.fixtureDom cronx.fixtureMonth
             cronx.fixtureDow
           Job := cronx.fixtureNewJob ⟨7⟩ },
         { ID := 3
           Schedule := cron.Schedule.SpecSchedule 1 1 8 cronx.fixtureDom cronx.fixtureMonth
             cronx.fixtureDow
           Job := cronx.fixtureNewJob ⟨7⟩ }]
      ∧ cronx.Remove (cronx.Remove
          (cronx.Schedules cronx.fixtureNewJob cronx.fixtureWorld
            "0 0 1 * * *#0 0 2 * * *#0 0 3 * * *" "#" ⟨7⟩).1 2) 2
        = cronx.Remove
          (cronx.Schedules cronx.fixtureNewJob cronx.fixtureWorld
            "0 0 1 * * *#0 0 2 * * *#0 0 3 * * *" "#" ⟨7⟩).1 2
      ∧ cronx.Remove cronx.nilWorld 2 = cronx.nilWorld := by
  have h := C8_Remove_idempotent
    (cronx.Schedules cronx.fixtureNewJob cronx.fixtureWorld
      "0 0 1 * * *#0 0 2 * * *#0 0 3 * * *" "#" ⟨7⟩).1 2
  have h0 := (C8_Remove_idempotent cronx.nilWorld 2).2.2.2.2.2.2 rfl
  refine ⟨?_, h.1, h0⟩
  rw [h.2.1]
  decide

/-- C7: for every config `c`, `New(c)` hands to `NewCommandController` the config `c` with
`PoolSize` replaced by 1000 exactly when `c.PoolSize <= 0`, `PanicRecover` replaced by the
default hook exactly when it is nil, `Location` replaced by `time.Local` exactly when it is nil,
and `Address` unchanged (an empty address stays empty).  The pool size handed over is at least 1.
`Default()` hands over address `:8998`, pool size 1000, the default hook and `time.Local`. -/
theorem C7_New_effective_config
    (NewCommandController : cronx.Config → cronx.CommandController)
    (Start : cronx.CommandController → cronx.CommandController) (c : cronx.Config)
    (w : cronx.World) :
    cronx.New NewCommandController Start c w
        = { commandController := some (Start (NewCommandController
              { Address := c.Address
                PoolSize := if c.PoolSize ≤ 0 then 1000 else c.PoolSize
                PanicRecover := if c.PanicRecover = none
                  then some cronx.PanicRecoverFn.defaultPanicRecover else c.PanicRecover
                Location := if c.Location = none then some cronx.Location.Local
                  else c.Location }))
            parseLog := w.parseLog }
      ∧ 1 ≤ (if c.PoolSize ≤ 0 then 1000 else c.PoolSize)
      ∧ (if c.PanicRecover = none
          then some cronx.PanicRecoverFn.defaultPanicRecover else c.PanicRecover) ≠ none
      ∧ (if c.Location = none then some cronx.Location.Local else c.Location) ≠ none
      ∧ cronx.Default NewCommandController Start w
        = { commandController := some (Start (NewCommandController
              { Address := ":8998"
                PoolSize := 1000
                PanicRecover := some cronx.PanicRecoverFn.defaultPanicRecover
                Location := some cronx.Location.Local }))
            parseLog := w.parseLog } := by
  obtain ⟨addr, pool, pr, loc⟩ := c
  refine ⟨?_, ?_, ?_, ?_, ?_⟩
  · by_cases hp : pool ≤ 0 <;> cases pr <;> cases loc <;>
      simp [cronx.New, cronx.defaultConfig, hp]
  · split <;> omega
  · cases pr <;> simp
  · cases loc <;> simp
  · simp [cronx.Default, cronx.New, cronx.defaultConfig]

/-! ## `userService` -/

/-- C9: for every user, every repository behaviour (and every `errorx.GetCode`), the outcome of
`userService.CreateUser` follows this table, read in order: code Invalid if the username is
blank, with no repository call at all; else code Internal if the username lookup returns a
non-nil error whose code is not NotFound; else code Conflict if the lookup returns a user and
the code of its error is not NotFound; else code Internal if the repository's `CreateUser`
fails; else no error.  The repository's `CreateUser` is called exactly in the last two rows,
that is only when the username is non-blank and `isUsernameInUse` reported `false` without
error. -/
theorem C9_CreateUser_decision_table
    (GetCode : Option error → errorx.Code) (u : service.userService) (user : entity.User) :
    service.codeField (service.userService.CreateUser GetCode u user).1
        = (if user.Username = "" then some errorx.Code.Invalid
           else if (u.repository.FindUserByUsername user.Username).2.isSome
               ∧ GetCode (u.repository.FindUserByUsername user.Username).2
                 ≠ errorx.Code.NotFound then some errorx.Code.Internal
           else if (u.repository.FindUserByUsername user.Username).1.isSome
               ∧ GetCode (u.repository.FindUserByUsername user.Username).2
                 ≠ errorx.Code.NotFound then some errorx.Code.Conflict
           else if (u.repository.CreateUser user).isSome then some errorx.Code.Internal
           else none)
      ∧ ((service.userService.CreateUser GetCode u user).1.isSome
          = (service.codeField (service.userService.CreateUser GetCode u user).1).isSome)
      ∧ (service.userService.CreateUser GetCode u user).2
        = (if user.Username = "" then []
           else if ((u.repository.FindUserByUsername user.Username).2.isSome
                 ∨ (u.repository.FindUserByUsername user.Username).1.isSome)
               ∧ GetCode (u.repository.FindUserByUsername user.Username).2
                 ≠ errorx.Code.NotFound then
             [internal.RepoCall.FindUserByUsername user.Username]
           else [internal.RepoCall.FindUserByUsername user.Username,
                 internal.RepoCall.CreateUser user])
      ∧ ((∃ x, internal.RepoCall.CreateUser x
              ∈ (service.userService.CreateUser GetCode u user).2)
          ↔ user.Username ≠ ""
            ∧ (service.userService.isUsernameInUse GetCode u user.Username).1
              = (false, none)) := by
  by_cases hblank : user.Username = ""
  · simp [service.userService.CreateUser, hblank, service.codeField]
  · rcases hfind : u.repository.FindUserByUsername user.Username with ⟨fu, fe⟩
    by_cases hcode : GetCode fe = errorx.Code.NotFound
    · cases hcreate : u.repository.CreateUser user <;>
        simp [service.userService.CreateUser, service.userService.isUsernameInUse, hblank,
          hfind, hcode, hcreate, service.codeField]
    · cases fe with
      | some e =>
        simp [service.userService.CreateUser, service.userService.isUsernameInUse, hblank,
          hfind, hcode, service.codeField]
      | none =>
        cases fu with
        | some x =>
          simp [service.userService.CreateUser, service.userService.isUsernameInUse, hblank,
            hfind, hcode, service.codeField]
        | none =>
          cases hcreate : u.repository.CreateUser user <;>
            simp [service.userService.CreateUser, service.userService.isUsernameInUse, hblank,
              hfind, hcode, hcreate, service.codeField]

/-- C10: `userService.FindUserByID` returns a non-nil error if and only if the repository's
`FindUserByID` returns a non-nil error whose code is not NotFound, and then it returns that same
error with a nil user.  When the code of the repository's error is NotFound the error is
swallowed and the repository's user value (nil or not) is returned with a nil error; when the
repository returns no error its user is returned unchanged.  (For every `errorx.GetCode`.) -/
theorem C10_FindUserByID_error_passthrough
    (GetCode : Option error → errorx.Code) (u : service.userService) (id : Int) :
    ((service.userService.FindUserByID GetCode u id).1.2 ≠ none
        ↔ (u.repository.FindUserByID id).2 ≠ none
          ∧ GetCode (u.repository.FindUserByID id).2 ≠ errorx.Code.NotFound)
      ∧ ((u.repository.FindUserByID id).2 ≠ none
          ∧ GetCode (u.repository.FindUserByID id).2 ≠ errorx.Code.NotFound →
          (service.userService.FindUserByID GetCode u id).1
            = (none, (u.repository.FindUserByID id).2))
      ∧ (GetCode (u.repository.FindUserByID id).2 = errorx.Code.NotFound →
          (service.userService.FindUserByID GetCode u id).1
            = ((u.repository.FindUserByID id).1, none))
      ∧ ((u.repository.FindUserByID id).2 = none →
          (service.userService.FindUserByID GetCode u id).1
            = ((u.repository.FindUserByID id).1, none))
      ∧ (service.userService.FindUserByID GetCode u id).2
          = [internal.RepoCall.FindUserByID id] := by
  rcases hfind : u.repository.FindUserByID id with ⟨fu, fe⟩
  by_cases hcode : GetCode fe = errorx.Code.NotFound
  · simp [service.userService.FindUserByID, hfind, hcode]
  · cases fe with
    | some e => simp [service.userService.FindUserByID, hfind, hcode]
    | none => simp [service.userService.FindUserByID, hfind, hcode]

/-- Worked example for C10 with the example repository: ID 1 is found; ID 2 fails with the
repository's own error and a nil user; ID 3 is not found, which gives nil and no error; ID 4 is
reported not found with a user value, which is returned with no error. -/
theorem C10_FindUserByID_witness :
    (service.userService.FindUserByID service.fixtureGetCode service.fixtureService 1).1
        = (some { Username := "alice" }, none)
      ∧ (service.userService.FindUserByID service.fixtureGetCode service.fixtureService 2).1
        = (none, some (error.other "connection reset"))
      ∧ (service.userService.FindUserByID service.fixtureGetCode service.fixtureService 3).1
        = (none, none)
      ∧ (service.userService.FindUserByID service.fixtureGetCode service.fixtureService 4).1
        = (some { Username := "ghost" }, none) := by
  have h1 := (C10_FindUserByID_error_passthrough service.fixtureGetCode service.fixtureService
    1).2.2.2.1 rfl
  have h2 := (C10_FindUserByID_error_passthrough service.fixtureGetCode service.fixtureService
    2).2.1 ⟨by simp [service.fixtureService, service.fixtureRepository],
      by simp [service.fixtureService, service.fixtureRepository, service.fixtureGetCode]⟩
  have h3 := (C10_FindUserByID_error_passthrough service.fixtureGetCode service.fixtureService
    3).2.2.1 rfl
  have h4 := (C10_FindUserByID_error_passthrough service.fixtureGetCode service.fixtureService
    4).2.2.1 rfl
  exact ⟨h1, h2, h3, h4⟩

/-- Worked example for C9 with the example repository, one user per row of the table: a blank
name, `carol` (lookup fails), `alice` (taken), `dave` (creation fails), `erin` (created). -/
theorem C9_CreateUser_witness :
    service.codeField
        (service.userService.CreateUser service.fixtureGetCode service.fixtureService
          { Username := "" }).1 = some errorx.Code.Invalid
      ∧ (service.userService.CreateUser service.fixtureGetCode service.fixtureService
          { Username := "" }).2 = []
      ∧ service.codeField
        (service.userService.CreateUser service.fixtureGetCode service.fixtureService
          { Username := "carol" }).1 = some errorx.Code.Internal
      ∧ service.codeField
        (service.userService.CreateUser service.fixtureGetCode service.fixtureService
          { Username := "alice" }).1 = some errorx.Code.Conflict
      ∧ service.codeField
        (service.userService.CreateUser service.fixtureGetCode service.fixtureService
          { Username := "dave" }).1 = some errorx.Code.Internal
      ∧ (service.userService.CreateUser service.fixtureGetCode service.fixtureService
          { Username := "erin" }).1.isSome = false
      ∧ (service.userService.CreateUser service.fixtureGetCode service.fixtureService
          { Username := "erin" }).2
        = [internal.RepoCall.FindUserByUsername "erin",
           internal.RepoCall.CreateUser { Username := "erin" }] := by
  have h0 := C9_CreateUser_decision_table service.fixtureGetCode service.fixtureService
    { Username := "" }
  have h1 := C9_CreateUser_decision_table service.fixtureGetCode service.fixtureService
    { Username := "carol" }
  have h2 := C9_CreateUser_decision_table service.fixtureGetCode service.fixtureService
    { Username := "alice" }
  have h3 := C9_CreateUser_decision_table service.fixtureGetCode service.fixtureService
    { Username := "dave" }
  have h4 := C9_CreateUser_decision_table service.fixtureGetCode service.fixtureService
    { Username := "erin" }
  refine ⟨?_, ?_, ?_, ?_, ?_, ?_, ?_⟩
  · rw [h0.1]; decide
  · rw [h0.2.2.1]; decide
  · rw [h1.1]; decide
  · rw [h2.1]; decide
  · rw [h3.1]; decide
  · rw [h4.2.1, h4.1]; decide
  · rw [h4.2.2.1]; decide
